import Mathlib

/-
Verification of the constructor generator (`pkg/generator/constructor.go`) of
go-jsonschema: emission of `New*` constructor functions initializing struct
fields with their JSON-schema default values.

The file embeds the Go source shallowly:
  * dynamically typed JSON default values become the inductive `Value`
    (Go's `interface\x7b\x7d` after JSON decoding; numeric values are modelled
    as integers, floating-point rendering being orthogonal to the properties
    proved here);
  * the external `litter.Sdump` pretty-printer is modelled by `sdump`;
  * the external `sosodev/duration` ISO 8601 parser and Go's
    `time.Duration.String` / `time.ParseDuration` are modelled by
    `iso8601ParseNs`, `goDurationString` and `parseGoDuration`
    (integer-valued components);
  * the `codegen` package (target AST and emitter), which is part of the
    repository but outside the sources under verification, is modelled from
    the spec (§4.5: the emitter tracks an indentation level and a maximum
    line width and renders text deterministically).
Fallible Go functions returning `error` become `Except Err _`.
-/

namespace GoJsonSchema

/-- Dynamically typed JSON value as decoded into a Go `interface` value.
`vgoSlice` stands for a Go slice value of a concrete element type (kind
`reflect.Slice` but not `[]interface`), which the guard `tryFormatSlice`
distinguishes from `varr`. -/
inductive Value where
  | vnull : Value
  | vbool (b : Bool) : Value
  | vnum (n : Int) : Value
  | vstr (s : String) : Value
  | varr (elems : List Value) : Value
  | vobj (entries : List (String × Value)) : Value
  | vgoSlice (desc : String) : Value

/-- Go `%q`-style quoting of a string (escape sequences elided: the inputs
relevant to the claims contain no characters needing escapes). -/
def goQuote (s : String) : String := "\"" ++ s ++ "\""

mutual

/-- Model of the external `litter.Sdump` pretty-printer on decoded JSON
values: a deterministic rendering of a Go value as source text. -/
def sdump : Value → String
  | .vnull => "nil"
  | .vbool b => if b then "true" else "false"
  | .vnum n => toString n
  | .vstr s => goQuote s
  | .varr xs => "[]interface \x7b\x7d\x7b" ++ sdumpList xs ++ "\x7d"
  | .vobj kvs => "map[string]interface \x7b\x7d\x7b" ++ sdumpObj kvs ++ "\x7d"
  | .vgoSlice desc => desc

/-- Elementwise rendering of a dumped slice. -/
def sdumpList : List Value → String
  | [] => ""
  | v :: vs => sdump v ++ "," ++ sdumpList vs

/-- Entrywise rendering of a dumped map. -/
def sdumpObj : List (String × Value) → String
  | [] => ""
  | (k, v) :: rest => goQuote k ++ ": " ++ sdump v ++ "," ++ sdumpObj rest

end

/-- Digits of a decimal numeral folded into a natural number. -/
def digitsToNat (ds : List Char) : Nat :=
  ds.foldl (fun a c => a * 10 + (c.toNat - '0'.toNat)) 0

/-- Parse a nonempty run of decimal digits followed by the given designator
character; `none` when the input does not start with digits + designator. -/
def parseNumThen (desig : Char) (cs : List Char) : Option (Nat × List Char) :=
  let ds := cs.takeWhile (·.isDigit)
  let rest := cs.dropWhile (·.isDigit)
  if ds.isEmpty then none
  else match rest with
    | c :: rest₂ => if c = desig then some (digitsToNat ds, rest₂) else none
    | [] => none

/-- Parse an ordered run of optional `<number><designator>` components, each
designator weighted in nanoseconds; returns accumulated nanoseconds, leftover
input, and whether any component was consumed. -/
def parseComps : List (Char × Nat) → List Char → Nat × List Char × Bool
  | [], cs => (0, cs, false)
  | (d, mult) :: rest, cs =>
    match parseNumThen d cs with
    | some (n, cs₂) =>
      let r := parseComps rest cs₂
      (n * mult + r.1, r.2.1, true)
    | none => parseComps rest cs

/-- Model of the external `duration.Parse` (sosodev/duration) composed with
`.ToTimeDuration()`: parse an ISO 8601 duration string into nanoseconds.
Integer-valued components only; a month is taken as 30 days and a year as
365 days. `none` models a parse error. -/
def iso8601ParseNs (s : String) : Option Nat :=
  match s.toList with
  | 'P' :: rest =>
    let dateComps : List (Char × Nat) :=
      [('Y', 365 * 24 * 3600 * 1000000000),
       ('M', 30 * 24 * 3600 * 1000000000),
       ('W', 7 * 24 * 3600 * 1000000000),
       ('D', 24 * 3600 * 1000000000)]
    let timeComps : List (Char × Nat) :=
      [('H', 3600 * 1000000000), ('M', 60 * 1000000000), ('S', 1000000000)]
    let d := parseComps dateComps rest
    match d.2.1 with
    | 'T' :: rest₂ =>
      let t := parseComps timeComps rest₂
      if t.2.1 = [] ∧ t.2.2 then some (d.1 + t.1) else none
    | [] => if d.2.2 then some d.1 else none
    | _ => none
  | _ => none

/-- Fractional-second part of Go's duration formatting: `"." ++ digits` with
trailing zeros trimmed, empty when the fraction is zero. -/
def goFracStr (fr : Nat) : String :=
  if fr = 0 then ""
  else
    let digits := (Nat.toDigits 10 (1000000000 + fr)).drop 1
    let trimmed := (digits.reverse.dropWhile (· = '0')).reverse
    "." ++ String.mk trimmed

/-- Model of Go's `time.Duration.String` on a nonnegative duration in
nanoseconds. -/
def goDurationString (ns : Nat) : String :=
  if ns = 0 then "0s"
  else if ns < 1000 then toString ns ++ "ns"
  else if ns < 1000000 then toString (ns / 1000) ++ goFracStr ((ns % 1000) * 1000000) ++ "µs"
  else if ns < 1000000000 then toString (ns / 1000000) ++ goFracStr ((ns % 1000000) * 1000) ++ "ms"
  else
    let s := ns / 1000000000
    let fr := ns % 1000000000
    let secStr := toString (s % 60) ++ goFracStr fr ++ "s"
    if s < 60 then secStr
    else
      let m := s / 60
      let minStr := toString (m % 60) ++ "m" ++ secStr
      if m < 60 then minStr
      else toString (m / 60) ++ "h" ++ minStr

/-- Model of Go's `time.ParseDuration` on integer-valued components: a
nonempty sequence of `<number><unit>` with units `ns`, `us`/`µs`, `ms`,
`s`, `m`, `h`, summed in nanoseconds. -/
def parseGoDurAux : Nat → List Char → Option Nat
  | _, [] => some 0
  | 0, _ :: _ => none
  | fuel + 1, cs =>
    let ds := cs.takeWhile (·.isDigit)
    let rest := cs.dropWhile (·.isDigit)
    if ds.isEmpty then none
    else
      let n := digitsToNat ds
      match rest with
      | 'n' :: 's' :: r => (parseGoDurAux fuel r).map (n + ·)
      | 'u' :: 's' :: r => (parseGoDurAux fuel r).map (n * 1000 + ·)
      | 'µ' :: 's' :: r => (parseGoDurAux fuel r).map (n * 1000 + ·)
      | 'm' :: 's' :: r => (parseGoDurAux fuel r).map (n * 1000000 + ·)
      | 's' :: r => (parseGoDurAux fuel r).map (n * 1000000000 + ·)
      | 'm' :: r => (parseGoDurAux fuel r).map (n * 60 * 1000000000 + ·)
      | 'h' :: r => (parseGoDurAux fuel r).map (n * 3600 * 1000000000 + ·)
      | _ => none

/-- Entry point of the `time.ParseDuration` model. -/
def parseGoDuration (s : String) : Option Nat :=
  if s = "" then none else parseGoDurAux s.length s.toList

/-! ## Target AST model (codegen package).

Modelled from the spec: the `codegen` package of the repository is not among
the verified sources; §3 and §4.5 of the spec describe its data model
(`TypeDecl`, `StructType`, structural types including `NamedType` and
`DurationType`) and its deterministic emitter. -/

/-- Structural field type, as `constructor.go` discriminates it: a named
declared type (carrying its declaration's name, `nt.Decl.GetName()`), the
duration domain type, or any other structural type characterized by its
rendered source text. -/
inductive CGType where
  | namedType (declName : String) : CGType
  | durationType : CGType
  | other (rendered : String) : CGType

/-- Source text a field type renders to (`fieldType.Generate`). -/
def CGType.render : CGType → String
  | .namedType declName => declName
  | .durationType => "time.Duration"
  | .other rendered => rendered

/-- Modelled from the spec: the emitter (§4.5) tracks a maximum line width
and the current indentation level while accumulating rendered source text. -/
structure Emitter where
  maxLineLength : Nat
  indentLevel : Int
  content : String
deriving DecidableEq

/-- Tab indentation for the current level. -/
def indentStr (i : Int) : String := String.mk (List.replicate i.toNat '\t')

/-- `Printlnf`: write one indented line. -/
def Emitter.printlnf (e : Emitter) (s : String) : Emitter :=
  { e with content := e.content ++ indentStr e.indentLevel ++ s ++ "\n" }

/-- `Printf`: write indented text without a newline. -/
def Emitter.printf (e : Emitter) (s : String) : Emitter :=
  { e with content := e.content ++ indentStr e.indentLevel ++ s }

/-- `Commentf`: write one `//` comment line. -/
def Emitter.commentf (e : Emitter) (s : String) : Emitter :=
  e.printlnf ("// " ++ s)

/-- `Indent(d)`: shift the indentation level. -/
def Emitter.indentBy (e : Emitter) (d : Int) : Emitter :=
  { e with indentLevel := e.indentLevel + d }

/-- `NewEmitter`: fresh emitter with the given maximum line width. -/
def newEmitter (maxLen : Nat) : Emitter := ⟨maxLen, 0, ""⟩

/-- A struct field of the target AST: name, structural type, and the
optional JSON default value recorded for constructor synthesis. -/
structure StructField where
  name : String
  fieldType : CGType
  defaultValue : Option Value

/-- A struct type: its ordered field list. -/
structure StructType where
  fields : List StructField

/-- Body of a top-level type declaration: a struct type, or any other
type form (alias, enum, union, ...), which `constructor.go` ignores. -/
inductive DeclBody where
  | structType (st : StructType) : DeclBody
  | otherType : DeclBody

/-- A top-level named type declaration (`codegen.TypeDecl`). -/
structure TypeDecl where
  name : String
  declType : DeclBody

/-- Modelled from the spec: name of the catch-all field for
`additionalProperties` (§3: at most one field is the catch-all). -/
def additionalProperties : String := "AdditionalProperties"

/-- Modelled from the spec: the generator helper `sortedKeys` returns the
keys of a key-value container in sorted order (§5 determinism contract:
sorted-key iteration whenever order influences emitted text). The Go map is
modelled as an association list. -/
def sortedKeys (dvm : List (String × Value)) : List String :=
  List.insertionSort (· ≤ ·) (dvm.map Prod.fst)

/-- Modelled from the spec: the generator helper `upperFirst` capitalizes
the first letter of an identifier (§4.3: field name is Pascal-cased). -/
def upperFirst (s : String) : String := s.capitalize

/-- Association-list lookup modelling Go map indexing `dvm[k]` (absent keys
yield the zero value `nil`, though `sortedKeys` only produces present keys). -/
def lookupVal (k : String) : List (String × Value) → Value
  | [] => .vnull
  | (k₂, v) :: rest => if k₂ = k then v else lookupVal k rest

/-- Concatenation of a list of strings (the accumulation of a Go `+=` or
emitter loop). -/
def joinStr : List String → String
  | [] => ""
  | s :: rest => s ++ joinStr rest

/-! ## Embedding of `pkg/generator/constructor.go`. -/

/-- Error values of the generator package used by `constructor.go`. -/
inductive Err where
  | defaultDurationIsNotAString : Err
  | durationIsEmpty : Err
  | cannotConvertISO8601ToGoFormat : Err
  | cannotFindSlideToDump : Err
  | invalidDefaultValue : Err
  | cannotDumpDefaultSlice : Err
  | fieldFormat (fieldName : String) (cause : Err) : Err
deriving DecidableEq

/-- Model of `strings.TrimSpace`: drop whitespace from both ends. -/
def trimSpace (s : String) : String :=
  String.mk (((s.data.dropWhile Char.isWhitespace).reverse.dropWhile Char.isWhitespace).reverse)

/-- `constructorGenerator.hasDefaults`: true iff the declaration is a struct
type with at least one field carrying a default value. -/
def hasDefaults (decl : TypeDecl) : Bool :=
  match decl.declType with
  | .structType st => st.fields.any (fun f => f.defaultValue.isSome)
  | .otherType => false

/-- Is the reflected kind of the value `reflect.Slice`? -/
def kindIsSlice : Value → Bool
  | .varr _ => true
  | .vgoSlice _ => true
  | _ => false

/-- Go type assertion `defaultValue.([]interface\x7b\x7d)`. -/
def interfaceSliceOf : Value → Option (List Value)
  | .varr xs => some xs
  | _ => none

/-- `tryFormatSlice`: check that the value has kind slice and asserts to
`[]interface\x7b\x7d`. -/
def tryFormatSlice (dv : Value) : Except Err Unit :=
  if kindIsSlice dv then
    match interfaceSliceOf dv with
    | some _ => .ok ()
    | none => .error .invalidDefaultValue
  else .error .cannotFindSlideToDump

/-- `formatSliceValue`: render the field type into a fresh emitter, then the
empty composite `\x7b\x7d` for an empty slice, or one dumped element per
line, each followed by a comma, inside braces. -/
def formatSliceValue (fieldType : CGType) (dv : Value) (maxLen : Nat) : Except Err String :=
  let tmp := (newEmitter maxLen).printf fieldType.render
  match interfaceSliceOf dv with
  | none => .error .invalidDefaultValue
  | some df =>
    if df.isEmpty then .ok (tmp.content ++ "\x7b\x7d")
    else
      let tmp := tmp.printlnf "\x7b"
      let tmp := df.foldl (fun t v => t.printlnf (sdump v ++ ",")) tmp
      let tmp := tmp.printf "\x7d"
      .ok tmp.content

/-- Body of the composite literal emitted for a named-type default given as
a JSON object: one line per key in sorted order, capitalized and set to the
dumped value, with a trailing newline when nonempty. -/
def namedFieldsStr (dvm : List (String × Value)) : String :=
  let body := joinStr ((sortedKeys dvm).map
    (fun k => "\n" ++ upperFirst k ++ ": " ++ sdump (lookupVal k dvm) ++ ","))
  if body = "" then body else body ++ "\n"

/-- `formatDefaultValue`: format a default value for use in generated Go
code. Named types with object defaults become composite literals; duration
types parse the ISO 8601 default and re-parse the Go duration string at call
time of the generated constructor; slices become literal composites; all
else falls back to the (trimmed) `litter` dump. -/
def formatDefaultValue (fieldType : CGType) (dv : Value) (maxLen : Nat) : Except Err String :=
  match fieldType, dv with
  | .namedType declName, .vobj dvm =>
    .ok (declName ++ "\x7b" ++ namedFieldsStr dvm ++ "\x7d")
  | .durationType, dv =>
    match dv with
    | .vstr s =>
      if s = "" then .error .durationIsEmpty
      else
        match iso8601ParseNs s with
        | none => .error .cannotConvertISO8601ToGoFormat
        | some d =>
          .ok ("func() time.Duration \x7b d, _ := time.ParseDuration(" ++
            goQuote (goDurationString d) ++ "); return d \x7d()")
    | _ => .error .defaultDurationIsNotAString
  | fieldType, dv =>
    match tryFormatSlice dv with
    | .ok _ => formatSliceValue fieldType dv maxLen
    | .error _ => .ok (trimSpace (sdump dv))

/-- Field loop of `constructorGenerator.generate`: for each field with a
default value, other than the additional-properties catch-all, emit its
initializer line, propagating formatting failures. -/
def genFields : List StructField → Emitter → Except Err Emitter
  | [], out => .ok out
  | f :: rest, out =>
    match f.defaultValue with
    | none => genFields rest out
    | some dv =>
      if f.name = additionalProperties then genFields rest out
      else
        match formatDefaultValue f.fieldType dv out.maxLineLength with
        | .error e => .error (.fieldFormat f.name e)
        | .ok s => genFields rest (out.printlnf (f.name ++ ": " ++ s ++ ","))

/-- `constructorGenerator.generate`: the emitted closure, applied to an
emitter. Non-struct declarations return successfully without writing;
struct declarations emit the doc comment, the `New*` signature, and the
composite-literal return populated with the formatted defaults. -/
def generate (decl : TypeDecl) (out : Emitter) : Except Err Emitter :=
  match decl.declType with
  | .otherType => .ok out
  | .structType st =>
    let typeName := decl.name
    let out := out.commentf ("New" ++ typeName ++ " creates a new " ++ typeName ++
      " with default values.")
    let out := (out.printlnf ("func New" ++ typeName ++ "() " ++ typeName ++ " \x7b")).indentBy 1
    let out := (out.printlnf ("return " ++ typeName ++ "\x7b")).indentBy 1
    match genFields st.fields out with
    | .error e => .error e
    | .ok out =>
      let out := (out.indentBy (-1)).printlnf "\x7d"
      let out := (out.indentBy (-1)).printlnf "\x7d"
      .ok out

/-! ## String containment and specification-side renderings. -/

/-- Does `needle` occur as a contiguous run inside the character list? -/
def occursIn (needle : List Char) : List Char → Bool
  | [] => needle.isEmpty
  | c :: cs => needle.isPrefixOf (c :: cs) || occursIn needle cs

/-- Does `sub` occur as a substring of `hay`? -/
def strContains (hay sub : String) : Bool :=
  occursIn sub.data hay.data

/-- A list is a `isPrefixOf`-prefix of itself followed by anything. -/
lemma isPrefixOf_self_append (l r : List Char) : l.isPrefixOf (l ++ r) = true := by
  induction l with
  | nil => cases r <;> rfl
  | cons c cs ih => simp only [List.cons_append, List.isPrefixOf, beq_self_eq_true,
      Bool.true_and, List.append_eq, ih]

/-- Occurrence follows from an explicit decomposition of the haystack. -/
lemma occursIn_of_parts (n l r : List Char) : occursIn n (l ++ n ++ r) = true := by
  induction l with
  | nil =>
    cases n with
    | nil =>
      cases r with
      | nil => rfl
      | cons c cs => simp only [List.nil_append, occursIn, List.isPrefixOf, Bool.true_or]
    | cons x xs =>
      have h := isPrefixOf_self_append (x :: xs) r
      rw [List.cons_append] at h
      simp only [List.nil_append, List.cons_append, occursIn, List.append_eq, h, Bool.true_or]
  | cons c cs ih =>
    rw [List.append_assoc, List.cons_append]
    simp only [occursIn]
    rw [← List.append_assoc, ih]
    simp

/-- The empty string is a right identity for append. -/
lemma strAppend_empty (a : String) : a ++ "" = a := by
  ext1
  simp

/-- Substring containment from an explicit decomposition. -/
lemma strContains_append (a n b : String) : strContains (a ++ n ++ b) n = true := by
  have h : (a ++ n ++ b).data = a.data ++ n.data ++ b.data := by simp
  rw [strContains, h, List.append_assoc, ← List.append_assoc]
  exact occursIn_of_parts n.data a.data b.data

/-- The fields whose defaults the constructor initializes: those carrying a
default value other than the additional-properties catch-all. -/
def defaultFields (st : StructType) : List StructField :=
  st.fields.filter (fun f => f.defaultValue.isSome && f.name != additionalProperties)

/-- The `(fieldName, formattedDefault)` pairs the field loop emits, with the
loop's error propagation. -/
def formatAssigns (maxLen : Nat) : List StructField → Except Err (List (String × String))
  | [] => .ok []
  | f :: rest =>
    match f.defaultValue with
    | none => formatAssigns maxLen rest
    | some dv =>
      if f.name = additionalProperties then formatAssigns maxLen rest
      else
        match formatDefaultValue f.fieldType dv maxLen with
        | .error e => .error (.fieldFormat f.name e)
        | .ok s => (formatAssigns maxLen rest).map (fun as => (f.name, s) :: as)

/-- Text of the emitted initializer lines at a given indentation level. -/
def assignLines (i : Int) (assigns : List (String × String)) : String :=
  joinStr (assigns.map (fun a => indentStr i ++ (a.1 ++ ": " ++ a.2 ++ ",") ++ "\n"))

/-- Full text a successful constructor generation appends to the emitter:
doc comment, `New` signature, composite-literal return with the
initializer lines, and the closing braces. -/
def constructorText (typeName : String) (i : Int) (assigns : List (String × String)) : String :=
  indentStr i ++ ("// " ++ ("New" ++ typeName ++ " creates a new " ++ typeName ++
    " with default values.")) ++ "\n" ++
  indentStr i ++ ("func New" ++ typeName ++ "() " ++ typeName ++ " \x7b") ++ "\n" ++
  indentStr (i + 1) ++ ("return " ++ typeName ++ "\x7b") ++ "\n" ++
  assignLines (i + 2) assigns ++
  indentStr (i + 1) ++ "\x7d" ++ "\n" ++
  indentStr i ++ "\x7d" ++ "\n"

/-- The field loop is the fold of `formatAssigns` over the emitter: it fails
exactly when some initializer fails to format, and otherwise appends exactly
the initializer lines. -/
lemma genFields_spec (fs : List StructField) (m : Nat) (i : Int) (c : String) :
    genFields fs ⟨m, i, c⟩ =
      match formatAssigns m fs with
      | .error err => .error err
      | .ok assigns => .ok ⟨m, i, c ++ assignLines i assigns⟩ := by
  induction fs generalizing c with
  | nil => simp [genFields, formatAssigns, assignLines, joinStr, strAppend_empty]
  | cons f rest ih =>
    cases hdv : f.defaultValue with
    | none =>
      simp only [genFields, formatAssigns, hdv]
      exact ih c
    | some dv =>
      by_cases hap : f.name = additionalProperties
      · simp only [genFields, formatAssigns, hdv, if_pos hap]
        exact ih c
      · cases hfmt : formatDefaultValue f.fieldType dv m with
        | error err => simp [genFields, formatAssigns, hdv, if_neg hap, hfmt]
        | ok s =>
          simp only [genFields, formatAssigns, hdv, if_neg hap, hfmt, Emitter.printlnf]
          rw [ih (c ++ indentStr i ++ (f.name ++ ": " ++ s ++ ",") ++ "\n")]
          cases formatAssigns m rest with
          | error err => simp [Except.map]
          | ok assigns =>
            simp only [Except.map, Except.ok.injEq, Emitter.mk.injEq, assignLines,
              List.map_cons, joinStr]
            refine ⟨trivial, trivial, ?_⟩
            ext1
            simp

/-- Is an `Except` result a success? -/
def isOkE {α : Type} : Except Err α → Bool
  | .ok _ => true
  | .error _ => false

/-- The empty needle occurs in every haystack. -/
lemma occursIn_nil_needle (l : List Char) : occursIn [] l = true := by
  cases l with
  | nil => rfl
  | cons c cs => simp [occursIn, List.isPrefixOf]

/-- Occurrence is preserved by prepending to the haystack. -/
lemma occursIn_append_left (n a h : List Char) (hc : occursIn n h = true) :
    occursIn n (a ++ h) = true := by
  induction a with
  | nil => simpa using hc
  | cons c cs ih => simp [occursIn, ih]

/-- `isPrefixOf` is preserved by appending to the larger list. -/
lemma isPrefixOf_append_right (l m b : List Char) (h : l.isPrefixOf m = true) :
    l.isPrefixOf (m ++ b) = true := by
  induction l generalizing m with
  | nil => cases m ++ b <;> rfl
  | cons c cs ih =>
    cases m with
    | nil => simp [List.isPrefixOf] at h
    | cons d ds =>
      simp only [List.isPrefixOf, Bool.and_eq_true, beq_iff_eq] at h
      simp only [List.cons_append, List.isPrefixOf, Bool.and_eq_true, beq_iff_eq]
      exact ⟨h.1, ih ds h.2⟩

/-- Occurrence is preserved by appending to the haystack. -/
lemma occursIn_append_right (n h b : List Char) (hc : occursIn n h = true) :
    occursIn n (h ++ b) = true := by
  induction h with
  | nil =>
    cases n with
    | nil => exact occursIn_nil_needle b
    | cons x xs => simp [occursIn] at hc
  | cons c cs ih =>
    simp only [occursIn, Bool.or_eq_true] at hc
    rcases hc with hc | hc
    · have h₂ := isPrefixOf_append_right n (c :: cs) b hc
      rw [List.cons_append] at h₂
      simp [List.cons_append, occursIn, h₂]
    · simp [List.cons_append, occursIn, ih hc]

/-- Substring containment survives prepending. -/
lemma strContains_left (a h n : String) (hc : strContains h n = true) :
    strContains (a ++ h) n = true := by
  have hd : (a ++ h).data = a.data ++ h.data := rfl
  rw [strContains, hd]
  exact occursIn_append_left n.data a.data h.data hc

/-- Substring containment survives appending. -/
lemma strContains_right (h b n : String) (hc : strContains h n = true) :
    strContains (h ++ b) n = true := by
  have hd : (h ++ b).data = h.data ++ b.data := rfl
  rw [strContains, hd]
  exact occursIn_append_right n.data h.data b.data hc

/-- Every string contains itself. -/
lemma strContains_self (s : String) : strContains s s = true := by
  have h := occursIn_of_parts s.data [] []
  simpa using h

/-- The names of the formatted initializers are exactly the names of the
default-carrying, non-catch-all fields, in field order. -/
lemma formatAssigns_names (maxLen : Nat) (fs : List StructField)
    (assigns : List (String × String)) (h : formatAssigns maxLen fs = .ok assigns) :
    assigns.map Prod.fst =
      (fs.filter (fun f => f.defaultValue.isSome && f.name != additionalProperties)).map
        StructField.name := by
  induction fs generalizing assigns with
  | nil =>
    simp only [formatAssigns, Except.ok.injEq] at h
    subst h
    simp
  | cons f rest ih =>
    cases hdv : f.defaultValue with
    | none =>
      simp only [formatAssigns, hdv] at h
      simp [List.filter_cons, hdv, ih assigns h]
    | some dv =>
      by_cases hap : f.name = additionalProperties
      · simp only [formatAssigns, hdv, if_pos hap] at h
        simp [List.filter_cons, hdv, hap, ih assigns h]
      · cases hfmt : formatDefaultValue f.fieldType dv maxLen with
        | error err => simp [formatAssigns, hdv, if_neg hap, hfmt] at h
        | ok s =>
          simp only [formatAssigns, hdv, if_neg hap, hfmt] at h
          cases hra : formatAssigns maxLen rest with
          | error err => rw [hra] at h; simp [Except.map] at h
          | ok as₂ =>
            rw [hra] at h
            simp only [Except.map, Except.ok.injEq] at h
            subst h
            simp [List.filter_cons, hdv, hap, ih as₂ hra]

/-- Each default-carrying non-catch-all field contributes its formatted
initializer to the result of `formatAssigns`. -/
lemma formatAssigns_mem (maxLen : Nat) (fs : List StructField)
    (assigns : List (String × String)) (f : StructField) (dv : Value)
    (h : formatAssigns maxLen fs = .ok assigns) (hf : f ∈ fs)
    (hdv : f.defaultValue = some dv) (hap : f.name ≠ additionalProperties) :
    ∃ s, formatDefaultValue f.fieldType dv maxLen = .ok s ∧ (f.name, s) ∈ assigns := by
  induction fs generalizing assigns with
  | nil => cases hf
  | cons g rest ih =>
    rcases List.mem_cons.mp hf with heq | htail
    · subst heq
      simp only [formatAssigns, hdv, if_neg hap] at h
      cases hfmt : formatDefaultValue f.fieldType dv maxLen with
      | error err => rw [hfmt] at h; cases h
      | ok s =>
        rw [hfmt] at h
        cases hra : formatAssigns maxLen rest with
        | error err => rw [hra] at h; cases h
        | ok as₂ =>
          rw [hra] at h
          simp only [Except.map, Except.ok.injEq] at h
          subst h
          exact ⟨s, rfl, List.mem_cons_self _ _⟩
    · cases hgdv : g.defaultValue with
      | none =>
        simp only [formatAssigns, hgdv] at h
        exact ih assigns h htail
      | some gdv =>
        by_cases hgap : g.name = additionalProperties
        · simp only [formatAssigns, hgdv, if_pos hgap] at h
          exact ih assigns h htail
        · simp only [formatAssigns, hgdv, if_neg hgap] at h
          cases hfmt : formatDefaultValue g.fieldType gdv maxLen with
          | error err => rw [hfmt] at h; cases h
          | ok s =>
            rw [hfmt] at h
            cases hra : formatAssigns maxLen rest with
            | error err => rw [hra] at h; cases h
            | ok as₂ =>
              rw [hra] at h
              simp only [Except.map, Except.ok.injEq] at h
              subst h
              obtain ⟨s₂, hs₂, hmem⟩ := ih as₂ hra htail
              exact ⟨s₂, hs₂, List.mem_cons_of_mem _ hmem⟩

/-- If any default-carrying non-catch-all field fails to format, the whole
initializer list fails. -/
lemma formatAssigns_error_of (maxLen : Nat) (fs : List StructField) (f : StructField)
    (dv : Value) (err : Err) (hf : f ∈ fs) (hdv : f.defaultValue = some dv)
    (hap : f.name ≠ additionalProperties)
    (hfmt : formatDefaultValue f.fieldType dv maxLen = .error err) :
    ∃ e₂, formatAssigns maxLen fs = .error e₂ := by
  induction fs with
  | nil => cases hf
  | cons g rest ih =>
    rcases List.mem_cons.mp hf with heq | htail
    · subst heq
      refine ⟨.fieldFormat f.name err, ?_⟩
      simp [formatAssigns, hdv, if_neg hap, hfmt]
    · cases hgdv : g.defaultValue with
      | none =>
        obtain ⟨e₂, he₂⟩ := ih htail
        exact ⟨e₂, by simp [formatAssigns, hgdv, he₂]⟩
      | some gdv =>
        by_cases hgap : g.name = additionalProperties
        · obtain ⟨e₂, he₂⟩ := ih htail
          exact ⟨e₂, by simp [formatAssigns, hgdv, if_pos hgap, he₂]⟩
        · cases hgfmt : formatDefaultValue g.fieldType gdv maxLen with
          | error err₂ =>
            exact ⟨.fieldFormat g.name err₂, by
              simp [formatAssigns, hgdv, if_neg hgap, hgfmt]⟩
          | ok s =>
            obtain ⟨e₂, he₂⟩ := ih htail
            exact ⟨e₂, by simp [formatAssigns, hgdv, if_neg hgap, hgfmt, he₂, Except.map]⟩

/-- An initializer pair yields an explicit decomposition of the emitted
initializer lines around its own line. -/
lemma assignLines_mem (i : Int) (assigns : List (String × String)) (n s : String)
    (hmem : (n, s) ∈ assigns) :
    ∃ x y, assignLines i assigns = x ++ (n ++ ": " ++ s ++ ",") ++ y := by
  induction assigns with
  | nil => cases hmem
  | cons a rest ih =>
    rcases List.mem_cons.mp hmem with heq | htail
    · refine ⟨indentStr i, "\n" ++ assignLines i rest, ?_⟩
      rw [← heq]
      ext1
      simp [assignLines, joinStr]
    · obtain ⟨x, y, hxy⟩ := ih htail
      refine ⟨indentStr i ++ (a.1 ++ ": " ++ a.2 ++ ",") ++ "\n" ++ x, y, ?_⟩
      have hd : assignLines i (a :: rest) =
          indentStr i ++ (a.1 ++ ": " ++ a.2 ++ ",") ++ "\n" ++ assignLines i rest := by
        ext1
        simp [assignLines, joinStr]
      rw [hd, hxy]
      ext1
      simp

/-- Characterization of `generate` on struct declarations: it fails exactly
when some initializer fails to format, and otherwise appends exactly the
constructor text for the formatted initializer list, leaving the emitter's
width and indentation unchanged. -/
lemma generate_spec (decl : TypeDecl) (st : StructType) (m : Nat) (i : Int) (c : String)
    (h : decl.declType = .structType st) :
    generate decl ⟨m, i, c⟩ =
      match formatAssigns m st.fields with
      | .error err => .error err
      | .ok assigns => .ok ⟨m, i, c ++ constructorText decl.name i assigns⟩ := by
  simp only [generate, h, Emitter.commentf, Emitter.printlnf, Emitter.indentBy]
  rw [genFields_spec]
  cases formatAssigns m st.fields with
  | error err => rfl
  | ok assigns =>
    simp only [Except.ok.injEq, Emitter.mk.injEq, constructorText]
    have h₂ : i + 1 + 1 = i + 2 := by omega
    rw [h₂]
    have h₃ : i + 2 + -1 = i + 1 := by omega
    rw [h₃]
    have h₄ : i + 1 + -1 = i := by omega
    rw [h₄]
    refine ⟨trivial, rfl, ?_⟩
    ext1
    simp

/-- Sorted keys are invariant under permutation of the association list. -/
lemma sortedKeys_perm (dvm₁ dvm₂ : List (String × Value)) (hp : dvm₁.Perm dvm₂) :
    sortedKeys dvm₁ = sortedKeys dvm₂ := by
  have hmap : (dvm₁.map Prod.fst).Perm (dvm₂.map Prod.fst) := hp.map _
  have h₁ : (sortedKeys dvm₁).Perm (sortedKeys dvm₂) :=
    ((List.perm_insertionSort _ _).trans hmap).trans (List.perm_insertionSort _ _).symm
  exact List.eq_of_perm_of_sorted h₁ (List.sorted_insertionSort _ _)
    (List.sorted_insertionSort _ _)

/-- Lookup is invariant under permutation of an association list with
duplicate-free keys. -/
lemma lookupVal_perm (k : String) {l₁ l₂ : List (String × Value)} (hp : l₁.Perm l₂) :
    (l₁.map Prod.fst).Nodup → lookupVal k l₁ = lookupVal k l₂ := by
  induction hp with
  | nil => intro _; rfl
  | cons x p ih =>
    intro hn
    obtain ⟨a, b⟩ := x
    simp only [List.map_cons, List.nodup_cons] at hn
    simp only [lookupVal]
    by_cases hak : a = k
    · simp [hak]
    · simp only [if_neg hak]
      exact ih hn.2
  | swap x y l =>
    intro hn
    obtain ⟨a, bv⟩ := x
    obtain ⟨c, dv⟩ := y
    simp only [List.map_cons, List.nodup_cons, List.mem_cons] at hn
    have hca : c ≠ a := fun h => hn.1 (Or.inl h)
    simp only [lookupVal]
    by_cases hck : c = k <;> by_cases hak : a = k
    · exact absurd (hck.trans hak.symm) hca
    · simp [hck, hak]
    · simp [hck, hak]
    · simp [hck, hak]
  | trans p₁ p₂ ih₁ ih₂ =>
    intro hn
    exact (ih₁ hn).trans (ih₂ ((p₁.map Prod.fst).nodup hn))

/-- Closed form of `namedFieldsStr`: empty for an empty default object, and
otherwise one line per sorted key with a trailing newline. -/
lemma namedFieldsStr_eq (dvm : List (String × Value)) :
    namedFieldsStr dvm =
      if sortedKeys dvm = [] then ""
      else joinStr ((sortedKeys dvm).map
        (fun k => "\n" ++ upperFirst k ++ ": " ++ sdump (lookupVal k dvm) ++ ",")) ++ "\n" := by
  unfold namedFieldsStr
  cases hks : sortedKeys dvm with
  | nil => simp [joinStr]
  | cons k ks =>
    have hne : joinStr (((k :: ks).map
        (fun k => "\n" ++ upperFirst k ++ ": " ++ sdump (lookupVal k dvm) ++ ","))) ≠ "" := by
      intro h
      have h₂ := congrArg String.data h
      have h₃ : ('\n' :: ((upperFirst k).data ++ ": ".data ++
          (sdump (lookupVal k dvm)).data ++ ",".data ++
          (joinStr (ks.map (fun k => "\n" ++ upperFirst k ++ ": " ++
            sdump (lookupVal k dvm) ++ ","))).data)) = ("" : String).data := by
        rw [← h₂]
        rfl
      cases h₃
    simp only [if_neg hne, List.cons_ne_self]
    rfl

/-- Well-formedness of a duration default value, as the shape under which
formatting succeeds: a nonempty string parseable as ISO 8601. -/
def durationDefaultWellFormed : Value → Bool
  | .vstr s => (s != "") && (iso8601ParseNs s).isSome
  | _ => false

/-- A fold of initializer lines over the emitter appends their
concatenation. -/
lemma foldl_printlnf (xs : List Value) (m : Nat) (i : Int) (c : String) :
    xs.foldl (fun (t : Emitter) v => t.printlnf (sdump v ++ ",")) (⟨m, i, c⟩ : Emitter) =
      ⟨m, i, c ++ joinStr (xs.map (fun v => indentStr i ++ (sdump v ++ ",") ++ "\n"))⟩ := by
  induction xs generalizing c with
  | nil =>
    simp only [List.foldl_nil, List.map_nil, joinStr, Emitter.mk.injEq]
    refine ⟨trivial, trivial, (strAppend_empty c).symm⟩
  | cons v vs ih =>
    have h₀ : (⟨m, i, c⟩ : Emitter).printlnf (sdump v ++ ",") =
        ⟨m, i, c ++ indentStr i ++ (sdump v ++ ",") ++ "\n"⟩ := rfl
    rw [List.foldl_cons, h₀, ih (c ++ indentStr i ++ (sdump v ++ ",") ++ "\n")]
    simp only [List.map_cons, joinStr, Emitter.mk.injEq]
    refine ⟨trivial, trivial, ?_⟩
    ext1
    simp

/-- Joining pointwise-equal renderings gives equal strings. -/
lemma joinStr_map_congr {α : Type} (f g : α → String) (l : List α) (h : ∀ a, f a = g a) :
    joinStr (l.map f) = joinStr (l.map g) := by
  rw [funext h]

/-! ## Claims. -/

/-- C3: for a duration-typed field with default `"PT30S"`, `formatDefaultValue`
succeeds and returns an expression embedding the Go duration string `"30s"`,
which re-parses (model of `time.ParseDuration`) to exactly 30 seconds. -/
theorem claim_C3 :
    formatDefaultValue CGType.durationType (Value.vstr "PT30S") 80 =
      .ok ("func() time.Duration \x7b d, _ := time.ParseDuration(" ++
        goQuote "30s" ++ "); return d \x7d()") ∧
    parseGoDuration "30s" = some (30 * 1000000000) :=
  ⟨rfl, rfl⟩

/-- C9: when the declaration's body is not a struct type, `generate` returns
success and leaves the emitter unchanged; and `hasDefaults` returns true
exactly when the declaration is a struct type with at least one field
carrying a default value. -/
theorem claim_C9 (decl : TypeDecl) (e : Emitter) :
    (decl.declType = DeclBody.otherType → generate decl e = .ok e) ∧
    (hasDefaults decl = true ↔ ∃ st, decl.declType = DeclBody.structType st ∧
      ∃ f, f ∈ st.fields ∧ f.defaultValue.isSome = true) := by
  constructor
  · intro h
    simp [generate, h]
  · cases hdecl : decl.declType with
    | otherType => simp [hasDefaults, hdecl]
    | structType st => simp [hasDefaults, hdecl, List.any_eq_true]

/-- Witness for C9: a non-struct declaration passes through untouched. -/
theorem claim_C9_witness :
    generate ⟨"X", DeclBody.otherType⟩ (newEmitter 80) = .ok (newEmitter 80) :=
  (claim_C9 ⟨"X", DeclBody.otherType⟩ (newEmitter 80)).1 rfl

/-- C10: under the precondition established by `tryFormatSlice`, the default
value is a `[]interface` slice, so the type assertion in `formatSliceValue`
succeeds and its `ErrInvalidDefaultValue` branch is unreachable. -/
theorem claim_C10 (dv : Value) (ft : CGType) (maxLen : Nat)
    (h : tryFormatSlice dv = .ok ()) :
    (interfaceSliceOf dv).isSome = true ∧
      formatSliceValue ft dv maxLen ≠ .error Err.invalidDefaultValue := by
  cases dv with
  | varr xs =>
    refine ⟨rfl, ?_⟩
    simp only [formatSliceValue, interfaceSliceOf]
    split <;> simp
  | vnull => simp [tryFormatSlice, kindIsSlice] at h
  | vbool b => simp [tryFormatSlice, kindIsSlice] at h
  | vnum n => simp [tryFormatSlice, kindIsSlice] at h
  | vstr s => simp [tryFormatSlice, kindIsSlice] at h
  | vobj kvs => simp [tryFormatSlice, kindIsSlice] at h
  | vgoSlice d => simp [tryFormatSlice, kindIsSlice, interfaceSliceOf] at h

/-- Witness for C10 at a concrete decoded JSON slice. -/
theorem claim_C10_witness :
    (interfaceSliceOf (Value.varr [Value.vnum 1])).isSome = true ∧
      formatSliceValue (CGType.other "[]int") (Value.varr [Value.vnum 1]) 80 ≠
        .error Err.invalidDefaultValue :=
  claim_C10 (Value.varr [Value.vnum 1]) (CGType.other "[]int") 80 rfl

/-- C4: for duration-typed fields, formatting the default succeeds exactly
when the default is a nonempty ISO 8601-parseable string, and a formatting
failure of any default-carrying non-catch-all field makes `generate` fail,
so no runtime-failing constructor code is emitted. -/
theorem claim_C4 (dv : Value) (maxLen : Nat) (decl : TypeDecl) (st : StructType)
    (e : Emitter) (f : StructField) (dvf : Value) (err : Err) :
    (isOkE (formatDefaultValue CGType.durationType dv maxLen) =
      durationDefaultWellFormed dv) ∧
    (decl.declType = DeclBody.structType st → f ∈ st.fields → f.defaultValue = some dvf →
      f.name ≠ additionalProperties →
      formatDefaultValue f.fieldType dvf e.maxLineLength = .error err →
      isOkE (generate decl e) = false) := by
  constructor
  · cases dv with
    | vstr s =>
      by_cases hs : s = ""
      · simp [formatDefaultValue, durationDefaultWellFormed, hs, isOkE]
      · cases hp : iso8601ParseNs s with
        | none => simp [formatDefaultValue, durationDefaultWellFormed, hs, hp, isOkE]
        | some d => simp [formatDefaultValue, durationDefaultWellFormed, hs, hp, isOkE]
    | vnull => simp [formatDefaultValue, durationDefaultWellFormed, isOkE]
    | vbool b => simp [formatDefaultValue, durationDefaultWellFormed, isOkE]
    | vnum n => simp [formatDefaultValue, durationDefaultWellFormed, isOkE]
    | varr xs => simp [formatDefaultValue, durationDefaultWellFormed, isOkE]
    | vobj kvs => simp [formatDefaultValue, durationDefaultWellFormed, isOkE]
    | vgoSlice d => simp [formatDefaultValue, durationDefaultWellFormed, isOkE]
  · intro hdecl hf hdv hap hfmt
    obtain ⟨m, i, c⟩ := e
    obtain ⟨e₂, he₂⟩ := formatAssigns_error_of m st.fields f dvf err hf hdv hap hfmt
    rw [generate_spec decl st m i c hdecl, he₂]
    rfl

/-- Witness for C4: an unparseable duration default is rejected and the
whole constructor generation fails on it. -/
theorem claim_C4_witness :
    (isOkE (formatDefaultValue CGType.durationType (Value.vstr "bad") 80) =
      durationDefaultWellFormed (Value.vstr "bad")) ∧
    isOkE (generate ⟨"T", DeclBody.structType ⟨[⟨"D", CGType.durationType,
      some (Value.vstr "bad")⟩]⟩⟩ (newEmitter 80)) = false :=
  ⟨(claim_C4 (Value.vstr "bad") 80 ⟨"T", DeclBody.structType ⟨[⟨"D", CGType.durationType,
      some (Value.vstr "bad")⟩]⟩⟩ ⟨[⟨"D", CGType.durationType, some (Value.vstr "bad")⟩]⟩
      (newEmitter 80) ⟨"D", CGType.durationType, some (Value.vstr "bad")⟩ (Value.vstr "bad")
      Err.cannotConvertISO8601ToGoFormat).1,
   (claim_C4 (Value.vstr "bad") 80 ⟨"T", DeclBody.structType ⟨[⟨"D", CGType.durationType,
      some (Value.vstr "bad")⟩]⟩⟩ ⟨[⟨"D", CGType.durationType, some (Value.vstr "bad")⟩]⟩
      (newEmitter 80) ⟨"D", CGType.durationType, some (Value.vstr "bad")⟩ (Value.vstr "bad")
      Err.cannotConvertISO8601ToGoFormat).2 rfl (List.mem_singleton.mpr rfl) rfl
      (by decide) rfl⟩

/-- Indentation is empty at the top level. -/
lemma indentStr_zero : indentStr 0 = "" := rfl

/-- C5: for a non-named, non-duration field whose default is a JSON array,
`formatDefaultValue` emits the rendered field type followed by an empty
brace pair when the array is empty, and otherwise a braced block listing
each dumped element in order, one per line, each followed by a comma. -/
theorem claim_C5 (r : String) (xs : List Value) (maxLen : Nat) :
    formatDefaultValue (CGType.other r) (Value.varr xs) maxLen =
      .ok (if xs.isEmpty then r ++ "\x7b\x7d"
        else r ++ "\x7b" ++ "\n" ++
          joinStr (xs.map (fun v => sdump v ++ "," ++ "\n")) ++ "\x7d") := by
  cases xs with
  | nil => rfl
  | cons v vs =>
    have h₁ : formatDefaultValue (CGType.other r) (Value.varr (v :: vs)) maxLen =
        .ok ((((v :: vs).foldl (fun (t : Emitter) w => t.printlnf (sdump w ++ ","))
          (⟨maxLen, 0, "" ++ indentStr 0 ++ r ++ indentStr 0 ++ "\x7b" ++ "\n"⟩ :
            Emitter)).printf "\x7d").content) := rfl
    rw [h₁, foldl_printlnf]
    have hmap : joinStr ((v :: vs).map (fun w => indentStr 0 ++ (sdump w ++ ",") ++ "\n")) =
        joinStr ((v :: vs).map (fun w => sdump w ++ "," ++ "\n")) :=
      joinStr_map_congr _ _ _ (fun a => by ext1; simp [indentStr_zero])
    have h₂ : ((⟨maxLen, 0, ("" ++ indentStr 0 ++ r ++ indentStr 0 ++ "\x7b" ++ "\n") ++
        joinStr ((v :: vs).map (fun w => indentStr 0 ++ (sdump w ++ ",") ++ "\n"))⟩ :
        Emitter).printf "\x7d").content =
        ("" ++ indentStr 0 ++ r ++ indentStr 0 ++ "\x7b" ++ "\n") ++
          joinStr ((v :: vs).map (fun w => indentStr 0 ++ (sdump w ++ ",") ++ "\n")) ++
          indentStr 0 ++ "\x7d" := rfl
    rw [h₂, hmap, if_neg (by simp : ¬((v :: vs).isEmpty = true))]
    congr 1
    ext1
    simp [indentStr_zero]

/-- C2 counterexample: for a named-type field with an object default, the
emitted initializer is a composite literal of the named type, not a call to
the nested type's `New` constructor — the output contains no such call. -/
theorem claim_C2_counterexample :
    formatDefaultValue (CGType.namedType "Nested") (Value.vobj [("a", Value.vnum 1)]) 80 =
      .ok "Nested\x7b\nA: 1,\n\x7d" ∧
    strContains "Nested\x7b\nA: 1,\n\x7d" "NewNested" = false :=
  ⟨rfl, by decide⟩

/-- C2 (amended): for a named-type field whose default is a JSON object, the
constructor initializes the field with a composite literal of the nested
named type, listing each key of the default object in sorted order,
capitalized and set to its dumped value. -/
theorem claim_C2 (n : String) (dvm : List (String × Value)) (maxLen : Nat) :
    formatDefaultValue (CGType.namedType n) (Value.vobj dvm) maxLen =
      .ok (n ++ "\x7b" ++
        (if sortedKeys dvm = [] then ""
         else joinStr ((sortedKeys dvm).map
           (fun k => "\n" ++ upperFirst k ++ ": " ++ sdump (lookupVal k dvm) ++ ",")) ++
           "\n") ++ "\x7d") := by
  simp only [formatDefaultValue, namedFieldsStr_eq]

/-- C6: formatting of a named-type object default is a function of the map
contents only — permuting the association list (with duplicate-free keys,
as in a Go map) leaves the emitted text byte-identical, because the keys
are iterated in sorted order. -/
theorem claim_C6 (n : String) (dvm₁ dvm₂ : List (String × Value)) (maxLen : Nat)
    (hp : dvm₁.Perm dvm₂) (hn : (dvm₁.map Prod.fst).Nodup) :
    formatDefaultValue (CGType.namedType n) (Value.vobj dvm₁) maxLen =
      formatDefaultValue (CGType.namedType n) (Value.vobj dvm₂) maxLen := by
  have hkeys := sortedKeys_perm dvm₁ dvm₂ hp
  have hlook : ∀ k, lookupVal k dvm₁ = lookupVal k dvm₂ := fun k => lookupVal_perm k hp hn
  have hbody : namedFieldsStr dvm₁ = namedFieldsStr dvm₂ := by
    unfold namedFieldsStr
    rw [hkeys]
    have hf : (fun k => "\n" ++ upperFirst k ++ ": " ++ sdump (lookupVal k dvm₁) ++ ",") =
        (fun k => "\n" ++ upperFirst k ++ ": " ++ sdump (lookupVal k dvm₂) ++ ",") :=
      funext (fun k => by rw [hlook k])
    rw [hf]
  simp only [formatDefaultValue, hbody]

/-- Witness for C6: the two orders of a two-key map format identically. -/
theorem claim_C6_witness :
    formatDefaultValue (CGType.namedType "T")
        (Value.vobj [("b", Value.vnum 1), ("a", Value.vnum 2)]) 80 =
      formatDefaultValue (CGType.namedType "T")
        (Value.vobj [("a", Value.vnum 2), ("b", Value.vnum 1)]) 80 :=
  claim_C6 "T" [("b", Value.vnum 1), ("a", Value.vnum 2)]
    [("a", Value.vnum 2), ("b", Value.vnum 1)] 80
    (List.Perm.swap ("a", Value.vnum 2) ("b", Value.vnum 1) []) (by decide)

/-- C1 counterexample: a struct whose only default-carrying field is the
additional-properties catch-all generates successfully, but its constructor
body contains no assignment for that field, contradicting the claim that
every field with a default gets an assignment. -/
theorem claim_C1_counterexample :
    generate ⟨"Foo", DeclBody.structType ⟨[⟨"AdditionalProperties",
        CGType.other "map[string]int", some (Value.vnum 1)⟩]⟩⟩ (newEmitter 80) =
      .ok ⟨80, 0, "// NewFoo creates a new Foo with default values.\nfunc NewFoo() Foo \x7b\n\treturn Foo\x7b\n\t\x7d\n\x7d\n"⟩ ∧
    strContains "// NewFoo creates a new Foo with default values.\nfunc NewFoo() Foo \x7b\n\treturn Foo\x7b\n\t\x7d\n\x7d\n"
      "AdditionalProperties" = false :=
  ⟨rfl, by decide⟩

/-- C1 (amended): when constructor generation succeeds, the body contains,
for every field with a default value other than the additional-properties
catch-all, an assignment of that field initialized to its formatted default
literal; the emitted initializer list is exactly the default-carrying
non-catch-all fields in field order, every emitted assignment belongs to a
field with a default, and no assignment is emitted for the catch-all even
when it carries a default. -/
theorem claim_C1 (decl : TypeDecl) (st : StructType) (e e₂ : Emitter) (f : StructField)
    (dv : Value) (hdecl : decl.declType = DeclBody.structType st)
    (hgen : generate decl e = .ok e₂) (hf : f ∈ st.fields)
    (hap : f.name ≠ additionalProperties) (hdv : f.defaultValue = some dv) :
    (∃ s, formatDefaultValue f.fieldType dv e.maxLineLength = .ok s ∧
      strContains e₂.content (f.name ++ ": " ++ s ++ ",") = true) ∧
    (∃ assigns, formatAssigns e.maxLineLength st.fields = .ok assigns ∧
      assigns.map Prod.fst =
        (st.fields.filter
          (fun g => g.defaultValue.isSome && g.name != additionalProperties)).map
          StructField.name ∧
      (∀ p ∈ assigns, ∃ g, g ∈ st.fields ∧ g.name = p.1 ∧
        g.defaultValue.isSome = true ∧ g.name ≠ additionalProperties) ∧
      additionalProperties ∉ assigns.map Prod.fst ∧
      e₂.content = e.content ++ constructorText decl.name e.indentLevel assigns) := by
  obtain ⟨m, i, c⟩ := e
  rw [generate_spec decl st m i c hdecl] at hgen
  cases hfa : formatAssigns m st.fields with
  | error err => rw [hfa] at hgen; cases hgen
  | ok assigns =>
    rw [hfa] at hgen
    simp only [Except.ok.injEq] at hgen
    subst hgen
    have hnames := formatAssigns_names m st.fields assigns hfa
    constructor
    · obtain ⟨s, hs, hmem⟩ := formatAssigns_mem m st.fields assigns f dv hfa hf hdv hap
      obtain ⟨x, y, hxy⟩ := assignLines_mem (i + 2) assigns f.name s hmem
      refine ⟨s, hs, ?_⟩
      show strContains (c ++ constructorText decl.name i assigns)
        (f.name ++ ": " ++ s ++ ",") = true
      apply strContains_left
      unfold constructorText
      apply strContains_right
      apply strContains_right
      apply strContains_right
      apply strContains_right
      apply strContains_right
      apply strContains_right
      apply strContains_left
      rw [hxy]
      exact strContains_append x (f.name ++ ": " ++ s ++ ",") y
    · refine ⟨assigns, rfl, hnames, ?_, ?_, rfl⟩
      · intro p hp
        have hmem : p.1 ∈ (st.fields.filter
            (fun g => g.defaultValue.isSome && g.name != additionalProperties)).map
            StructField.name := by
          rw [← hnames]
          exact List.mem_map_of_mem Prod.fst hp
        obtain ⟨g, hgf, hgeq⟩ := List.mem_map.mp hmem
        have hg := List.mem_filter.mp hgf
        have hpred := hg.2
        simp only [Bool.and_eq_true, bne_iff_ne, ne_eq] at hpred
        exact ⟨g, hg.1, hgeq, hpred.1, hpred.2⟩
      · intro hmem
        rw [hnames] at hmem
        obtain ⟨g, hgf, hgeq⟩ := List.mem_map.mp hmem
        have hpred := (List.mem_filter.mp hgf).2
        simp only [Bool.and_eq_true, bne_iff_ne, ne_eq] at hpred
        exact hpred.2 hgeq

/-- Field list of the C1 witness struct: an ordinary default-carrying field,
a field without a default, and a catch-all carrying a default. -/
def c1Fields : List StructField :=
  [⟨"A", CGType.other "int", some (Value.vnum 5)⟩,
   ⟨"B", CGType.other "string", none⟩,
   ⟨"AdditionalProperties", CGType.other "map[string]int", some (Value.vnum 7)⟩]

/-- Emitter state after generating the C1 witness constructor. -/
def c1Emitter : Emitter :=
  ⟨80, 0, "// NewFoo creates a new Foo with default values.\nfunc NewFoo() Foo \x7b\n\treturn Foo\x7b\n\t\tA: 5,\n\t\x7d\n\x7d\n"⟩

/-- Witness for C1 at a struct with a defaulted field, a default-less field,
and a defaulted catch-all. -/
theorem claim_C1_witness :
    (∃ s, formatDefaultValue (CGType.other "int") (Value.vnum 5)
        (newEmitter 80).maxLineLength = .ok s ∧
      strContains c1Emitter.content ("A" ++ ": " ++ s ++ ",") = true) ∧
    (∃ assigns, formatAssigns (newEmitter 80).maxLineLength c1Fields = .ok assigns ∧
      assigns.map Prod.fst =
        (c1Fields.filter
          (fun g => g.defaultValue.isSome && g.name != additionalProperties)).map
          StructField.name ∧
      (∀ p ∈ assigns, ∃ g, g ∈ c1Fields ∧ g.name = p.1 ∧
        g.defaultValue.isSome = true ∧ g.name ≠ additionalProperties) ∧
      additionalProperties ∉ assigns.map Prod.fst ∧
      c1Emitter.content = (newEmitter 80).content ++
        constructorText "Foo" (newEmitter 80).indentLevel assigns) :=
  claim_C1 ⟨"Foo", DeclBody.structType ⟨c1Fields⟩⟩ ⟨c1Fields⟩ (newEmitter 80) c1Emitter
    ⟨"A", CGType.other "int", some (Value.vnum 5)⟩ (Value.vnum 5) rfl rfl
    (List.mem_cons_self _ _) (by decide) rfl

/-- C7: for a struct type declaration named `X`, successful generation emits
a function `NewX` returning `X` via a composite literal of `X`, preceded by
the doc comment `NewX creates a new X with default values.`. -/
theorem claim_C7 (decl : TypeDecl) (st : StructType) (e e₂ : Emitter)
    (hdecl : decl.declType = DeclBody.structType st) (hgen : generate decl e = .ok e₂) :
    strContains e₂.content
      (indentStr e.indentLevel ++ ("// " ++ ("New" ++ decl.name ++ " creates a new " ++
        decl.name ++ " with default values.")) ++ "\n" ++
       indentStr e.indentLevel ++ ("func New" ++ decl.name ++ "() " ++ decl.name ++
        " \x7b") ++ "\n" ++
       indentStr (e.indentLevel + 1) ++ ("return " ++ decl.name ++ "\x7b") ++ "\n") = true := by
  obtain ⟨m, i, c⟩ := e
  rw [generate_spec decl st m i c hdecl] at hgen
  cases hfa : formatAssigns m st.fields with
  | error err => rw [hfa] at hgen; cases hgen
  | ok assigns =>
    rw [hfa] at hgen
    simp only [Except.ok.injEq] at hgen
    subst hgen
    show strContains (c ++ constructorText decl.name i assigns) _ = true
    apply strContains_left
    unfold constructorText
    apply strContains_right
    apply strContains_right
    apply strContains_right
    apply strContains_right
    apply strContains_right
    apply strContains_right
    apply strContains_right
    exact strContains_self _

/-- Witness for C7 at a one-field struct named `Foo`. -/
theorem claim_C7_witness :
    strContains (⟨80, 0, "// NewFoo creates a new Foo with default values.\nfunc NewFoo() Foo \x7b\n\treturn Foo\x7b\n\t\tA: 5,\n\t\x7d\n\x7d\n"⟩ : Emitter).content
      (indentStr (newEmitter 80).indentLevel ++ ("// " ++ ("New" ++ "Foo" ++
        " creates a new " ++ "Foo" ++ " with default values.")) ++ "\n" ++
       indentStr (newEmitter 80).indentLevel ++ ("func New" ++ "Foo" ++ "() " ++ "Foo" ++
        " \x7b") ++ "\n" ++
       indentStr ((newEmitter 80).indentLevel + 1) ++ ("return " ++ "Foo" ++ "\x7b") ++
        "\n") = true :=
  claim_C7 ⟨"Foo", DeclBody.structType ⟨[⟨"A", CGType.other "int", some (Value.vnum 5)⟩]⟩⟩
    ⟨[⟨"A", CGType.other "int", some (Value.vnum 5)⟩]⟩ (newEmitter 80)
    ⟨80, 0, "// NewFoo creates a new Foo with default values.\nfunc NewFoo() Foo \x7b\n\treturn Foo\x7b\n\t\tA: 5,\n\t\x7d\n\x7d\n"⟩
    rfl rfl

/-- C8: a successful constructor initializes exactly the struct's fields
that carry a default value and are not the additional-properties catch-all,
in the struct's field order: the emitted content is precisely the
constructor text over those formatted initializers. -/
theorem claim_C8 (decl : TypeDecl) (st : StructType) (e e₂ : Emitter)
    (hdecl : decl.declType = DeclBody.structType st) (hgen : generate decl e = .ok e₂) :
    ∃ assigns, formatAssigns e.maxLineLength st.fields = .ok assigns ∧
      assigns.map Prod.fst =
        (st.fields.filter
          (fun f => f.defaultValue.isSome && f.name != additionalProperties)).map
          StructField.name ∧
      e₂.content = e.content ++ constructorText decl.name e.indentLevel assigns := by
  obtain ⟨m, i, c⟩ := e
  rw [generate_spec decl st m i c hdecl] at hgen
  cases hfa : formatAssigns m st.fields with
  | error err => rw [hfa] at hgen; cases hgen
  | ok assigns =>
    rw [hfa] at hgen
    simp only [Except.ok.injEq] at hgen
    subst hgen
    exact ⟨assigns, rfl, formatAssigns_names m st.fields assigns hfa, rfl⟩

/-- Witness for C8: the catch-all's default is omitted while the ordinary
field's default is emitted. -/
theorem claim_C8_witness :
    ∃ assigns, formatAssigns (newEmitter 80).maxLineLength
        [⟨"AdditionalProperties", CGType.other "map[string]int", some (Value.vnum 7)⟩,
         ⟨"A", CGType.other "int", some (Value.vnum 5)⟩] = .ok assigns ∧
      assigns.map Prod.fst =
        (([⟨"AdditionalProperties", CGType.other "map[string]int", some (Value.vnum 7)⟩,
           ⟨"A", CGType.other "int", some (Value.vnum 5)⟩] : List StructField).filter
          (fun f => f.defaultValue.isSome && f.name != additionalProperties)).map
          StructField.name ∧
      (⟨80, 0, "// NewFoo creates a new Foo with default values.\nfunc NewFoo() Foo \x7b\n\treturn Foo\x7b\n\t\tA: 5,\n\t\x7d\n\x7d\n"⟩ : Emitter).content =
        (newEmitter 80).content ++
          constructorText "Foo" (newEmitter 80).indentLevel assigns :=
  claim_C8 ⟨"Foo", DeclBody.structType ⟨[⟨"AdditionalProperties",
      CGType.other "map[string]int", some (Value.vnum 7)⟩,
      ⟨"A", CGType.other "int", some (Value.vnum 5)⟩]⟩⟩
    ⟨[⟨"AdditionalProperties", CGType.other "map[string]int", some (Value.vnum 7)⟩,
      ⟨"A", CGType.other "int", some (Value.vnum 5)⟩]⟩ (newEmitter 80)
    ⟨80, 0, "// NewFoo creates a new Foo with default values.\nfunc NewFoo() Foo \x7b\n\treturn Foo\x7b\n\t\tA: 5,\n\t\x7d\n\x7d\n"⟩
    rfl rfl

end GoJsonSchema
